import Mathlib

/-!
Verification of the supervised iterative RAG orchestrator of the
Agentic-RAG-System repository.

The development shallowly embeds the two orchestrators of the repository:

* `SupervisedRAGWorkflow` (src/supervised_workflow.py): a graph-driven loop
  research → analysis → supervisor → {continue, write, end}, writer → END,
  threaded over a `WorkflowState` record;
* `MultiAgentOrchestrator.process_query` (src/agents.py): an explicit
  while-loop over the same three agents.

The three phase agents (`ResearchAgent.research`, `AnalysisAgent.analyze`,
`WriterAgent.write`, all in src/agents.py) wrap one external LLM call each in
a try/except; the external call is modelled by an `LLMOutcome` oracle (the
LLM either returns a content string or raises with a message), and the
surrounding Python code — result-record construction, free-text parsing of
the analysis, error fallbacks — is translated faithfully.  Python strings
are handled as `List Char`, with helpers mirroring `str.lower`,
`str.strip`, `in` (substring test), `str.split(c)` and `str.split(c, 1)`.
-/

namespace AgenticRAG

/-! ### Python string helpers -/

/-- Python `str.lower()` (ASCII case folding, which covers every string the
orchestrator compares). -/
def pyLower (s : List Char) : List Char := s.map Char.toLower

/-- Python `str.strip()`: drop leading and trailing whitespace. -/
def pyStrip (s : List Char) : List Char :=
  ((s.dropWhile Char.isWhitespace).reverse.dropWhile Char.isWhitespace).reverse

/-- `needle` is a prefix of `hay` (Boolean, on char lists). -/
def isPrefixL : List Char → List Char → Bool
  | [], _ => true
  | _ :: _, [] => false
  | a :: as, b :: bs => a == b && isPrefixL as bs

/-- Python `needle in hay` substring test. -/
def containsSub (needle hay : List Char) : Bool :=
  match hay with
  | [] => isPrefixL needle []
  | _ :: t => isPrefixL needle hay || containsSub needle t

/-- Python `s.split(c)` on a single-character separator. -/
def splitOnChar (c : Char) : List Char → List (List Char)
  | [] => [[]]
  | a :: as =>
    match splitOnChar c as with
    | [] => [[]]
    | r :: rs => if a == c then [] :: r :: rs else (a :: r) :: rs

/-- Python `s.split(c, 1)`: split at the first occurrence of `c`;
`none` when `c` does not occur (Python's `c in line` guard). -/
def splitFirst (c : Char) : List Char → Option (List Char × List Char)
  | [] => none
  | a :: as =>
    if a == c then some ([], as)
    else (splitFirst c as).map (fun p => (a :: p.1, p.2))

/-! ### Phase agents (src/agents.py)

Each agent's single external LLM invocation is an oracle outcome: either the
call returns a content string, or it raises and the agent's `except` branch
runs with the exception message. -/

/-- Outcome of one external LLM call: normal return or raised exception. -/
inductive LLMOutcome where
  | ok (content : String)
  | err (msg : String)
deriving Repr, DecidableEq

/-- Result record of `ResearchAgent.research` (src/agents.py lines 85-100):
the `raw_messages` debugging field is not modelled. -/
structure ResearchResult where
  query : String
  result : String
  sources_used : List String
  success : Bool
deriving Repr, DecidableEq

/-- `ResearchAgent.research` (src/agents.py lines 42-100): on a normal LLM
return the extracted output is reported with `success=True` and the sources
are guessed from keywords of the output text; on an exception the `except`
branch reports `"Research failed: ..."` with `success=False`. -/
def researchImpl (query : String) (outcome : LLMOutcome) : ResearchResult :=
  match outcome with
  | .ok output =>
    let lo := pyLower output.data
    let srcLocal : List String :=
      if containsSub "local documents".data lo || containsSub "rag".data lo
      then ["local"] else []
    let srcWeb : List String :=
      if containsSub "web search".data lo || containsSub "internet".data lo
      then ["web"] else []
    { query := query, result := output, sources_used := srcLocal ++ srcWeb,
      success := true }
  | .err e =>
    { query := query, result := "Research failed: " ++ e, sources_used := [],
      success := false }

/-- Result record of `AnalysisAgent.analyze` (src/agents.py lines 152-171). -/
structure AnalysisResult where
  sufficient : Bool
  quality : String
  gaps : String
  recommendation : String
  reasoning : String
  full_analysis : String
  success : Bool
deriving Repr, DecidableEq

/-- The key/value pairs parsed from the analysis text, in line order
(src/agents.py lines 141-147): a line contributes iff it contains a colon;
it is split at the first colon and both parts are stripped. -/
def parsePairs (text : List Char) : List (List Char × List Char) :=
  (splitOnChar (Char.ofNat 10) text).filterMap fun line =>
    (splitFirst (Char.ofNat 58) line).map fun p => (pyStrip p.1, pyStrip p.2)

/-- Python dict lookup with default: later assignments overwrite earlier
ones, so the last binding of the key wins. -/
def dictGet (d : List (List Char × List Char)) (key dflt : List Char) :
    List Char :=
  match d.reverse.find? (fun p => p.1 == key) with
  | some p => p.2
  | none => dflt

/-- `AnalysisAgent.analyze` (src/agents.py lines 128-171): on a normal LLM
return the structured reply is parsed line-by-line and `sufficient` is the
test `SUFFICIENT == yes` (case-insensitive, default `No`); on an exception
the `except` branch returns the fixed insufficient verdict with
`recommendation = "need_more_research"` and `success=False`. -/
def analyzeImpl (outcome : LLMOutcome) : AnalysisResult :=
  match outcome with
  | .ok text =>
    let d := parsePairs text.data
    { sufficient := pyLower (dictGet d "SUFFICIENT".data "No".data) == "yes".data,
      quality := ⟨dictGet d "QUALITY".data "Unknown".data⟩,
      gaps := ⟨dictGet d "GAPS".data "".data⟩,
      recommendation := ⟨dictGet d "RECOMMENDATION".data "need_more_research".data⟩,
      reasoning := ⟨dictGet d "REASONING".data "".data⟩,
      full_analysis := text,
      success := true }
  | .err e =>
    { sufficient := false, quality := "Unknown", gaps := "Analysis failed",
      recommendation := "need_more_research",
      reasoning := "Error during analysis: " ++ e,
      full_analysis := "", success := false }

/-- Result record of `WriterAgent.write` (src/agents.py lines 210-221). -/
structure WriteResult where
  query : String
  summary : String
  success : Bool
deriving Repr, DecidableEq

/-- `WriterAgent.write` (src/agents.py lines 198-221): on a normal LLM
return the response content is the summary with `success=True`; on an
exception the summary is `"Writing failed: ..."` with `success=False`. -/
def writeImpl (query : String) (outcome : LLMOutcome) : WriteResult :=
  match outcome with
  | .ok content => { query := query, summary := content, success := true }
  | .err e =>
    { query := query, summary := "Writing failed: " ++ e, success := false }

/-- The external LLM, as seen by one run: one outcome per research attempt
(indexed by the 1-based attempt number and the `prefer_web` flag shaping the
instruction), one per analysis (indexed by the iteration it evaluates), and
one for the single writing call. -/
structure LLMOracle where
  research : Nat → Bool → LLMOutcome
  analyze : Nat → LLMOutcome
  write : LLMOutcome

/-! ### Workflow state and graph nodes (src/supervised_workflow.py) -/

/-- `WorkflowState` (src/supervised_workflow.py lines 15-27).  The
`analysis_results` dict starts empty (`{}`) and afterwards always holds a
full analysis record, so it is an `Option AnalysisResult`; the Python
`.get(key, default)` accesses are the `…Of` helpers below. -/
structure WorkflowState where
  query : String
  research_results : String := ""
  analysis_results : Option AnalysisResult := none
  final_output : String := ""
  iteration_count : Nat := 0
  max_iterations : Nat := 3
  use_web_search : Bool := false
  satisfied : Bool := false
deriving Repr, DecidableEq

/-- `analysis_results.get("sufficient", False)`. -/
def sufficientOf : Option AnalysisResult → Bool
  | none => false
  | some a => a.sufficient

/-- `analysis_results.get("recommendation", "")`. -/
def recommendationOf : Option AnalysisResult → String
  | none => ""
  | some a => a.recommendation

/-- `analysis_results.get("full_analysis", "")`. -/
def fullAnalysisOf : Option AnalysisResult → String
  | none => ""
  | some a => a.full_analysis

/-- `SupervisedRAGWorkflow._research_node` (lines 72-85): call the research
agent with the current `use_web_search` preference, store its result text,
and increment `iteration_count` once. -/
def researchNode (A : LLMOracle) (s : WorkflowState) : WorkflowState :=
  let r := researchImpl s.query (A.research (s.iteration_count + 1) s.use_web_search)
  { s with research_results := r.result, iteration_count := s.iteration_count + 1 }

/-- `SupervisedRAGWorkflow._analysis_node` (lines 87-99): store the analysis
record for the research results of the current iteration. -/
def analysisNode (A : LLMOracle) (s : WorkflowState) : WorkflowState :=
  { s with analysis_results := some (analyzeImpl (A.analyze s.iteration_count)) }

/-- `SupervisedRAGWorkflow._writer_node` (lines 101-114): call the writer
and store its summary as `final_output`. -/
def writerNode (A : LLMOracle) (s : WorkflowState) : WorkflowState :=
  let w := writeImpl s.query A.write
  { s with final_output := w.summary }

/-- `SupervisedRAGWorkflow._supervisor_node` (lines 116-135): the elif chain
sufficient / budget reached / escalate-to-web / continue; only the
escalation branch mutates the state (`use_web_search = True`). -/
def supervisorNode (s : WorkflowState) : WorkflowState :=
  if sufficientOf s.analysis_results then s
  else if s.max_iterations ≤ s.iteration_count then s
  else if !s.use_web_search
      && containsSub "web search".data (pyLower (recommendationOf s.analysis_results).data) then
    { s with use_web_search := true }
  else s

/-- The three labels `_should_continue` can route to: `"write"`, `"continue"`
and `"end"` (src/supervised_workflow.py lines 59-67). -/
inductive Route where
  | write
  | cont
  | stop
deriving Repr, DecidableEq

/-- `SupervisedRAGWorkflow._should_continue` (lines 137-146): write when
sufficient, write when the budget is reached, otherwise continue.  The
`"end"` label (`Route.stop`) wired into the graph is never produced. -/
def shouldContinue (s : WorkflowState) : Route :=
  if sufficientOf s.analysis_results then Route.write
  else if s.max_iterations ≤ s.iteration_count then Route.write
  else Route.cont

/-- One collaborator invocation, as recorded in the run trace: a research
call (with its 1-based iteration and the `prefer_web` strategy flag), an
analysis call (with the sufficiency of its verdict), or the writing call. -/
inductive Event where
  | research (iteration : Nat) (prefer_web : Bool)
  | analysis (iteration : Nat) (sufficient : Bool)
  | write
deriving Repr, DecidableEq

/-- The compiled graph (src/supervised_workflow.py lines 45-70) run from a
state: entry point `research`, fixed edges research → analysis →
supervisor, then the conditional edge routes `continue` back to research,
`write` to the writer node (which ends the run), `end` straight to END.
The `fuel` argument bounds the recursion; it is a modelling device only
and `runGraph_write_count` shows the fuel used by `runWithBudget` is never
exhausted. -/
def runGraph (A : LLMOracle) : Nat → WorkflowState → WorkflowState × List Event
  | 0, s => (s, [])
  | fuel + 1, s =>
    let s1 := researchNode A s
    let s2 := analysisNode A s1
    let s3 := supervisorNode s2
    let ev1 := Event.research s1.iteration_count s.use_web_search
    let ev2 := Event.analysis s1.iteration_count (sufficientOf s2.analysis_results)
    match shouldContinue s3 with
    | Route.write => (writerNode A s3, [ev1, ev2, Event.write])
    | Route.cont =>
      let rest := runGraph A fuel s3
      (rest.1, ev1 :: ev2 :: rest.2)
    | Route.stop => (s3, [ev1, ev2])

/-- The fresh state `WorkflowState(query=query)` built by
`SupervisedRAGWorkflow.run` (line 153): all other fields take their
declared defaults, in particular `max_iterations = 3`. -/
def initialState (query : String) : WorkflowState := { query := query }

/-- A graph run from a fresh state with iteration budget `N`
(`WorkflowState(query=query)` with `max_iterations = N`); the fuel `N + 1`
is enough for the longest possible run. -/
def runWithBudget (A : LLMOracle) (query : String) (N : Nat) :
    WorkflowState × List Event :=
  runGraph A (N + 1) { query := query, max_iterations := N }

/-- The result dict of `SupervisedRAGWorkflow.run` (lines 167-174). -/
structure RunOutput where
  query : String
  final_output : String
  research_results : String
  analysis_results : Option AnalysisResult
  iterations : Nat
  used_web_search : Bool
deriving Repr, DecidableEq

/-- `SupervisedRAGWorkflow.run` (lines 148-174): build the fresh initial
state, invoke the compiled graph, and project the final state into the
result dict.  The thread-id bookkeeping for the checkpointer (lines
156-161) is I/O plumbing with no effect on the state transitions and is
not modelled. -/
def runWorkflow (A : LLMOracle) (query : String) : RunOutput × List Event :=
  let s0 := initialState query
  let r := runGraph A (s0.max_iterations + 1) s0
  ({ query := query,
     final_output := r.1.final_output,
     research_results := r.1.research_results,
     analysis_results := r.1.analysis_results,
     iterations := r.1.iteration_count,
     used_web_search := r.1.use_web_search }, r.2)

/-- Number of research events in a trace. -/
def researchCount (evs : List Event) : Nat :=
  evs.countP fun e => match e with | .research _ _ => true | _ => false

/-- Number of analysis events in a trace. -/
def analysisCount (evs : List Event) : Nat :=
  evs.countP fun e => match e with | .analysis _ _ => true | _ => false

/-- Number of write events in a trace. -/
def writeCount (evs : List Event) : Nat :=
  evs.countP fun e => match e with | .write => true | _ => false

/-- The `prefer_web` flags of the research events of a trace, in order. -/
def researchFlags (evs : List Event) : List Bool :=
  evs.filterMap fun e => match e with | .research _ pw => some pw | _ => none

/-- A Boolean flag sequence is monotone: once `true`, it stays `true`. -/
def monotoneFlags : List Bool → Bool
  | [] => true
  | b :: rest => if b then rest.all (fun x => x) else monotoneFlags rest

/-! ### The explicit-loop orchestrator
`MultiAgentOrchestrator.process_query` (src/agents.py lines 232-319) -/

/-- The result dict of `process_query`: the early-success return (lines
277-285) carries no `note`, the post-loop return (lines 310-319) carries
the fixed note and hard-codes `success = False`.  The `workflow_log` list
of strings is subsumed by the event trace. -/
structure PQResult where
  query : String
  final_answer : String
  research_results : List ResearchResult
  analysis : Option AnalysisResult
  iterations : Nat
  success : Bool
  note : Option String
deriving Repr, DecidableEq

/-- Prepend events to the trace of a partial run. -/
def consEvents (es : List Event) (p : PQResult × List Event) :
    PQResult × List Event :=
  (p.1, es ++ p.2)

/-- The code after the `while` loop of `process_query` (src/agents.py lines
300-319): a final best-effort writing call with whatever research/analysis
is still in scope (`locals()` checks become the `Option` arguments), then
the return dict with `success` hard-coded to `False`.  The prompt strings
`final_research`/`final_analysis` only shape the writer's prompt; the
writer's reply is the oracle's `write` outcome. -/
def pqFinish (A : LLMOracle) (query : String) (iteration : Nat)
    (last_research : Option ResearchResult)
    (last_analysis : Option AnalysisResult) : PQResult × List Event :=
  let w := writeImpl query A.write
  ({ query := query,
     final_answer := w.summary,
     research_results := match last_research with | some r => [r] | none => [],
     analysis := last_analysis,
     iterations := iteration,
     success := false,
     note := some "Maximum iterations reached or insufficient information found" },
   [Event.write])

/-- The `while iteration < max_iterations` loop of `process_query`
(src/agents.py lines 241-298).  `iteration`, `prefer_web` and the
last-seen research/analysis records are the Python locals; a failed
research or analysis call `break`s to the post-loop code, a sufficient
verdict returns early through the writer, a `web_search` recommendation
(when not yet preferring web) flips `prefer_web` and continues, a
`more_research` recommendation continues, anything else `break`s.  The
structural `fuel` starts at `max_iterations`, which dominates the number
of loop entries. -/
def pqLoop (A : LLMOracle) (query : String) (maxIter : Nat) :
    Nat → Nat → Bool → Option ResearchResult → Option AnalysisResult →
    PQResult × List Event
  | 0, iteration, _, lr, la => pqFinish A query iteration lr la
  | fuel + 1, iteration, prefer_web, lr, la =>
    if iteration < maxIter then
      let it := iteration + 1
      let r := researchImpl query (A.research it prefer_web)
      if !r.success then
        consEvents [Event.research it prefer_web] (pqFinish A query it (some r) la)
      else
        let a := analyzeImpl (A.analyze it)
        if !a.success then
          consEvents [Event.research it prefer_web, Event.analysis it a.sufficient]
            (pqFinish A query it (some r) (some a))
        else if a.sufficient then
          let w := writeImpl query A.write
          ({ query := query, final_answer := w.summary, research_results := [r],
             analysis := some a, iterations := it, success := w.success,
             note := none },
           [Event.research it prefer_web, Event.analysis it a.sufficient,
            Event.write])
        else
          let recLower := pyLower a.recommendation.data
          if containsSub "web_search".data recLower && !prefer_web then
            consEvents [Event.research it prefer_web, Event.analysis it a.sufficient]
              (pqLoop A query maxIter fuel it true (some r) (some a))
          else if containsSub "more_research".data recLower then
            consEvents [Event.research it prefer_web, Event.analysis it a.sufficient]
              (pqLoop A query maxIter fuel it prefer_web (some r) (some a))
          else
            consEvents [Event.research it prefer_web, Event.analysis it a.sufficient]
              (pqFinish A query it (some r) (some a))
    else pqFinish A query iteration lr la

/-- `MultiAgentOrchestrator.process_query` (src/agents.py lines 232-319):
run the loop from `iteration = 0`, `prefer_web = False`, nothing in scope. -/
def processQuery (A : LLMOracle) (query : String) (max_iterations : Nat) :
    PQResult × List Event :=
  pqLoop A query max_iterations max_iterations 0 false none none

/-! ### The decision policy, packaged (spec §4.1 vs the code) -/

/-- The code's notion of a strategy-escalation recommendation
(src/supervised_workflow.py line 129): the phrase `"web search"` occurs in
the lowercased recommendation text. -/
def escalationRecommended (rec : String) : Bool :=
  containsSub "web search".data (pyLower rec.data)

/-- The actions of the spec's Decision Policy (§4.1). -/
inductive Action where
  | SYNTHESIZE
  | ESCALATE_AND_CONTINUE
  | CONTINUE
  | ABORT
deriving Repr, DecidableEq

/-- The decision the graph workflow takes after each analysis, packaged as
one function over the code: apply `_supervisor_node` (the only state
delta) and read the `_should_continue` routing; an escalating continue is
one where the supervisor raised the web-search flag. -/
def decideCode (s : WorkflowState) : Action × WorkflowState :=
  let t := supervisorNode s
  match shouldContinue t with
  | Route.write => (Action.SYNTHESIZE, t)
  | Route.cont =>
    (if t.use_web_search && !s.use_web_search then Action.ESCALATE_AND_CONTINUE
     else Action.CONTINUE, t)
  | Route.stop => (Action.ABORT, t)

/-- Modelled from the spec: the ordered, first-match-wins decision policy of
spec §4.1 (sufficient → SYNTHESIZE; budget reached → SYNTHESIZE; not yet
escalated and escalation recommended → ESCALATE_AND_CONTINUE; otherwise
CONTINUE), stated over the code's own escalation-recommendation test. -/
def decideSpec (s : WorkflowState) : Action :=
  if sufficientOf s.analysis_results then Action.SYNTHESIZE
  else if s.max_iterations ≤ s.iteration_count then Action.SYNTHESIZE
  else if !s.use_web_search
      && escalationRecommended (recommendationOf s.analysis_results) then
    Action.ESCALATE_AND_CONTINUE
  else Action.CONTINUE

/-! ### Concrete oracles for scenario evaluation -/

/-- An oracle whose analyses are never sufficient and always recommend more
research; every call succeeds. -/
def insufficientOracle : LLMOracle :=
  { research := fun _ _ => .ok "some findings",
    analyze := fun _ => .ok "SUFFICIENT: No\nRECOMMENDATION: need_more_research",
    write := .ok "final summary" }

/-- An oracle realizing the escalation scenario: the first analysis
recommends a web search, later ones recommend plain retries. -/
def escalOracle : LLMOracle :=
  { research := fun _ pw => .ok (if pw then "web findings" else "local findings"),
    analyze := fun i =>
      .ok (if i == 1 then "SUFFICIENT: No\nRECOMMENDATION: Need Web Search"
           else "SUFFICIENT: No\nRECOMMENDATION: need_more_research"),
    write := .ok "final answer" }

/-- An oracle whose first analysis already reports sufficiency. -/
def sufficientOracle : LLMOracle :=
  { research := fun _ _ => .ok "conclusive findings",
    analyze := fun _ => .ok "SUFFICIENT: Yes\nRECOMMENDATION: proceed_to_writing",
    write := .ok "final answer" }

/-- An oracle whose research calls always raise. -/
def failingResearchOracle : LLMOracle :=
  { research := fun _ _ => .err "connection error",
    analyze := fun _ => .ok "SUFFICIENT: No\nRECOMMENDATION: need_more_research",
    write := .ok "best effort" }

/-- An oracle whose writing call succeeds but returns empty content. -/
def emptyWriterOracle : LLMOracle :=
  { research := fun _ _ => .ok "findings",
    analyze := fun _ => .ok "SUFFICIENT: Yes\nRECOMMENDATION: proceed_to_writing",
    write := .ok "" }

/-- A workflow state whose iteration count has reached its budget. -/
def budgetState : WorkflowState := { query := "q", iteration_count := 3 }

/-! ### Helper lemmas: what each node leaves untouched -/

theorem researchNode_query (A : LLMOracle) (s : WorkflowState) :
    (researchNode A s).query = s.query := rfl

theorem researchNode_max (A : LLMOracle) (s : WorkflowState) :
    (researchNode A s).max_iterations = s.max_iterations := rfl

theorem researchNode_iteration (A : LLMOracle) (s : WorkflowState) :
    (researchNode A s).iteration_count = s.iteration_count + 1 := rfl

theorem researchNode_web (A : LLMOracle) (s : WorkflowState) :
    (researchNode A s).use_web_search = s.use_web_search := rfl

theorem analysisNode_query (A : LLMOracle) (s : WorkflowState) :
    (analysisNode A s).query = s.query := rfl

theorem analysisNode_max (A : LLMOracle) (s : WorkflowState) :
    (analysisNode A s).max_iterations = s.max_iterations := rfl

theorem analysisNode_iteration (A : LLMOracle) (s : WorkflowState) :
    (analysisNode A s).iteration_count = s.iteration_count := rfl

theorem analysisNode_web (A : LLMOracle) (s : WorkflowState) :
    (analysisNode A s).use_web_search = s.use_web_search := rfl

theorem analysisNode_analysis (A : LLMOracle) (s : WorkflowState) :
    (analysisNode A s).analysis_results
      = some (analyzeImpl (A.analyze s.iteration_count)) := rfl

theorem writerNode_query (A : LLMOracle) (s : WorkflowState) :
    (writerNode A s).query = s.query := rfl

theorem writerNode_web (A : LLMOracle) (s : WorkflowState) :
    (writerNode A s).use_web_search = s.use_web_search := rfl

theorem writerNode_final (A : LLMOracle) (s : WorkflowState) :
    (writerNode A s).final_output = (writeImpl s.query A.write).summary := rfl

theorem supervisorNode_query (s : WorkflowState) :
    (supervisorNode s).query = s.query := by
  unfold supervisorNode; split_ifs <;> rfl

theorem supervisorNode_max (s : WorkflowState) :
    (supervisorNode s).max_iterations = s.max_iterations := by
  unfold supervisorNode; split_ifs <;> rfl

theorem supervisorNode_iteration (s : WorkflowState) :
    (supervisorNode s).iteration_count = s.iteration_count := by
  unfold supervisorNode; split_ifs <;> rfl

theorem supervisorNode_analysis (s : WorkflowState) :
    (supervisorNode s).analysis_results = s.analysis_results := by
  unfold supervisorNode; split_ifs <;> rfl

theorem supervisorNode_web_cases (s : WorkflowState) :
    (supervisorNode s).use_web_search = s.use_web_search
      ∨ (s.use_web_search = false ∧ (supervisorNode s).use_web_search = true) := by
  unfold supervisorNode
  split_ifs with h1 h2 h3
  · exact Or.inl rfl
  · exact Or.inl rfl
  · refine Or.inr ⟨?_, rfl⟩
    simp only [Bool.and_eq_true, Bool.not_eq_true'] at h3
    exact h3.1
  · exact Or.inl rfl

theorem supervisorNode_web_mono (s : WorkflowState)
    (h : s.use_web_search = true) :
    (supervisorNode s).use_web_search = true := by
  rcases supervisorNode_web_cases s with h' | ⟨hf, _⟩
  · rw [h', h]
  · rw [hf] at h; cases h

theorem shouldContinue_ne_stop (s : WorkflowState) :
    shouldContinue s ≠ Route.stop := by
  unfold shouldContinue; split_ifs <;> simp

theorem shouldContinue_eq_cont (s : WorkflowState)
    (h : shouldContinue s = Route.cont) :
    sufficientOf s.analysis_results = false
      ∧ s.iteration_count < s.max_iterations := by
  unfold shouldContinue at h
  split_ifs at h with h1 h2
  exact ⟨Bool.eq_false_iff.mpr h1, Nat.lt_of_not_le h2⟩

/-! ### Helper lemmas: graph runs -/

theorem runGraph_research_le (A : LLMOracle) :
    ∀ fuel s, s.iteration_count < s.max_iterations →
      researchCount (runGraph A fuel s).2 ≤ s.max_iterations - s.iteration_count := by
  intro fuel
  induction fuel with
  | zero => intro s _; simp [runGraph, researchCount]
  | succ n ih =>
    intro s hs
    rw [runGraph]
    split
    · simp only [researchCount, List.countP_cons, List.countP_nil]
      simp
      omega
    · next hr =>
      have h2 := shouldContinue_eq_cont _ hr
      rw [supervisorNode_iteration, analysisNode_iteration, researchNode_iteration,
          supervisorNode_max, analysisNode_max, researchNode_max] at h2
      have ihx := ih (supervisorNode (analysisNode A (researchNode A s)))
      rw [supervisorNode_iteration, analysisNode_iteration, researchNode_iteration,
          supervisorNode_max, analysisNode_max, researchNode_max] at ihx
      have ihy := ihx h2.2
      simp only [researchCount, List.countP_cons] at ihy ⊢
      simp
      omega
    · simp [researchCount, List.countP_cons]
      omega

theorem runGraph_write_count (A : LLMOracle) :
    ∀ fuel s, 1 ≤ fuel → s.max_iterations < fuel + s.iteration_count →
      writeCount (runGraph A fuel s).2 = 1 := by
  intro fuel
  induction fuel with
  | zero => intro s h _; omega
  | succ n ih =>
    intro s _ hs
    rw [runGraph]
    split
    · simp [writeCount, List.countP_cons]
    · next hr =>
      have h2 := shouldContinue_eq_cont _ hr
      rw [supervisorNode_iteration, analysisNode_iteration, researchNode_iteration,
          supervisorNode_max, analysisNode_max, researchNode_max] at h2
      have ihx := ih (supervisorNode (analysisNode A (researchNode A s)))
      rw [supervisorNode_iteration, analysisNode_iteration, researchNode_iteration,
          supervisorNode_max, analysisNode_max, researchNode_max] at ihx
      have ihy := ihx (by omega) (by omega)
      simp only [writeCount, List.countP_cons] at ihy ⊢
      simp at ihy ⊢
      omega
    · next hr => exact absurd hr (shouldContinue_ne_stop _)

theorem runGraph_query (A : LLMOracle) :
    ∀ fuel s, (runGraph A fuel s).1.query = s.query := by
  intro fuel
  induction fuel with
  | zero => intro s; rfl
  | succ n ih =>
    intro s
    rw [runGraph]
    split
    · rw [writerNode_query, supervisorNode_query, analysisNode_query, researchNode_query]
    · rw [ih, supervisorNode_query, analysisNode_query, researchNode_query]
    · rw [supervisorNode_query, analysisNode_query, researchNode_query]

theorem runGraph_final_output (A : LLMOracle) :
    ∀ fuel s, 1 ≤ fuel → s.max_iterations < fuel + s.iteration_count →
      (runGraph A fuel s).1.final_output = (writeImpl s.query A.write).summary := by
  intro fuel
  induction fuel with
  | zero => intro s h _; omega
  | succ n ih =>
    intro s _ hs
    rw [runGraph]
    split
    · rw [writerNode_final, supervisorNode_query, analysisNode_query, researchNode_query]
    · next hr =>
      have h2 := shouldContinue_eq_cont _ hr
      rw [supervisorNode_iteration, analysisNode_iteration, researchNode_iteration,
          supervisorNode_max, analysisNode_max, researchNode_max] at h2
      have ihx := ih (supervisorNode (analysisNode A (researchNode A s)))
      rw [supervisorNode_iteration, analysisNode_iteration, researchNode_iteration,
          supervisorNode_max, analysisNode_max, researchNode_max,
          supervisorNode_query, analysisNode_query, researchNode_query] at ihx
      exact ihx (by omega) (by omega)
    · next hr => exact absurd hr (shouldContinue_ne_stop _)

theorem runGraph_web_mono (A : LLMOracle) :
    ∀ fuel s, s.use_web_search = true →
      (runGraph A fuel s).1.use_web_search = true := by
  intro fuel
  induction fuel with
  | zero => intro s h; exact h
  | succ n ih =>
    intro s hw
    have hw3 : (supervisorNode (analysisNode A (researchNode A s))).use_web_search
        = true := by
      apply supervisorNode_web_mono
      rw [analysisNode_web, researchNode_web]; exact hw
    rw [runGraph]
    split
    · rw [writerNode_web]; exact hw3
    · exact ih _ hw3
    · exact hw3

theorem runGraph_sufficient_stops (A : LLMOracle) :
    ∀ fuel s p suf k,
      (runGraph A fuel s).2 = p ++ Event.analysis k true :: suf →
      suf = [Event.write] := by
  intro fuel
  induction fuel with
  | zero =>
    intro s p suf k h
    simp only [runGraph] at h
    cases p <;> simp_all
  | succ n ih =>
    intro s p suf k h
    rw [runGraph] at h
    revert h
    split
    · intro h
      rcases p with _ | ⟨a, _ | ⟨b, _ | ⟨c, rest⟩⟩⟩ <;> simp_all
    · next hr =>
      intro h
      have hsuff := (shouldContinue_eq_cont _ hr).1
      rw [supervisorNode_analysis, analysisNode_analysis] at hsuff
      rw [analysisNode_analysis] at h
      rcases p with _ | ⟨a, _ | ⟨b, rest⟩⟩
      · simp_all
      · simp only [List.cons_append, List.nil_append, List.cons.injEq,
          Event.analysis.injEq] at h
        rw [hsuff] at h
        exact absurd h.2.1.2 Bool.false_ne_true
      · simp only [List.cons_append, List.cons.injEq] at h
        exact ih _ rest suf k h.2.2
    · next hr => exact absurd hr (shouldContinue_ne_stop _)

theorem runGraph_flags (A : LLMOracle) :
    ∀ fuel s,
      (s.use_web_search = true →
        (researchFlags (runGraph A fuel s).2).all (fun x => x) = true)
      ∧ monotoneFlags (researchFlags (runGraph A fuel s).2) = true := by
  intro fuel
  induction fuel with
  | zero => intro s; simp [runGraph, researchFlags, monotoneFlags]
  | succ n ih =>
    intro s
    have hmono : s.use_web_search = true →
        (supervisorNode (analysisNode A (researchNode A s))).use_web_search
          = true := by
      intro hw
      apply supervisorNode_web_mono
      rw [analysisNode_web, researchNode_web]; exact hw
    rw [runGraph]
    split
    · cases hw : s.use_web_search <;> simp [researchFlags, monotoneFlags]
    · have ihx := ih (supervisorNode (analysisNode A (researchNode A s)))
      cases hw : s.use_web_search
      · constructor
        · intro h; cases h
        · simp only [researchFlags, List.filterMap_cons, monotoneFlags]
          simpa [researchFlags, monotoneFlags] using ihx.2
      · constructor
        · intro _
          simp only [researchFlags, List.filterMap_cons, List.all_cons]
          simpa [researchFlags] using (ihx.1 (hmono hw))
        · simp only [researchFlags, List.filterMap_cons, monotoneFlags]
          simpa [researchFlags] using (ihx.1 (hmono hw))
    · cases hw : s.use_web_search <;> simp [researchFlags, monotoneFlags]

/-! ### Helper lemmas: the explicit loop -/

theorem researchCount_consEvents (es : List Event) (p : PQResult × List Event) :
    researchCount (consEvents es p).2 = researchCount es + researchCount p.2 := by
  simp [consEvents, researchCount, List.countP_append]

theorem researchCount_pqFinish (A : LLMOracle) (q : String) (i : Nat)
    (lr : Option ResearchResult) (la : Option AnalysisResult) :
    researchCount (pqFinish A q i lr la).2 = 0 := by
  simp [pqFinish, researchCount]

theorem pqLoop_research_le (A : LLMOracle) (q : String) (N : Nat) :
    ∀ fuel i pw lr la, researchCount (pqLoop A q N fuel i pw lr la).2 ≤ fuel := by
  intro fuel
  induction fuel with
  | zero => intro i pw lr la; simp [pqLoop, researchCount_pqFinish]
  | succ n ih =>
    intro i pw lr la
    simp only [pqLoop]
    split
    · split
      · rw [researchCount_consEvents, researchCount_pqFinish]
        simp [researchCount, List.countP_cons]
      · split
        · rw [researchCount_consEvents, researchCount_pqFinish]
          simp [researchCount, List.countP_cons]
        · split
          · simp [researchCount, List.countP_cons]
          · split
            · rw [researchCount_consEvents]
              have := ih (i+1) true (some (researchImpl q (A.research (i+1) pw)))
                (some (analyzeImpl (A.analyze (i+1))))
              simp only [researchCount, List.countP_cons, List.countP_nil] at this ⊢
              simp
              omega
            · split
              · rw [researchCount_consEvents]
                have := ih (i+1) pw (some (researchImpl q (A.research (i+1) pw)))
                  (some (analyzeImpl (A.analyze (i+1))))
                simp only [researchCount, List.countP_cons, List.countP_nil] at this ⊢
                simp
                omega
              · rw [researchCount_consEvents, researchCount_pqFinish]
                simp [researchCount, List.countP_cons]
    · rw [researchCount_pqFinish]; omega

theorem pqLoop_flags (A : LLMOracle) (q : String) (N : Nat) :
    ∀ fuel i pw lr la,
      (pw = true →
        (researchFlags (pqLoop A q N fuel i pw lr la).2).all (fun x => x) = true)
      ∧ monotoneFlags (researchFlags (pqLoop A q N fuel i pw lr la).2) = true := by
  intro fuel
  induction fuel with
  | zero => intro i pw lr la; simp [pqLoop, pqFinish, researchFlags, monotoneFlags]
  | succ n ih =>
    intro i pw lr la
    simp only [pqLoop]
    split
    · split
      · cases pw <;> simp [consEvents, pqFinish, researchFlags, monotoneFlags]
      · split
        · cases pw <;> simp [consEvents, pqFinish, researchFlags, monotoneFlags]
        · split
          · cases pw <;> simp [researchFlags, monotoneFlags]
          · split
            · next hguard =>
              have hpw : pw = false := by
                simp only [Bool.and_eq_true, Bool.not_eq_true'] at hguard
                exact hguard.2
              subst hpw
              have ihx := ih (i+1) true (some (researchImpl q (A.research (i+1) false)))
                (some (analyzeImpl (A.analyze (i+1))))
              constructor
              · intro h; cases h
              · simp only [consEvents, researchFlags, List.filterMap_append,
                  List.filterMap_cons, List.filterMap_nil]
                simpa [researchFlags, monotoneFlags] using ihx.2
            · split
              · have ihx := ih (i+1) pw (some (researchImpl q (A.research (i+1) pw)))
                  (some (analyzeImpl (A.analyze (i+1))))
                cases pw
                · constructor
                  · intro h; cases h
                  · simp only [consEvents, researchFlags, List.filterMap_append,
                      List.filterMap_cons, List.filterMap_nil]
                    simpa [researchFlags, monotoneFlags] using ihx.2
                · constructor
                  · intro _
                    simp only [consEvents, researchFlags, List.filterMap_append,
                      List.filterMap_cons, List.filterMap_nil, List.all_cons]
                    simpa [researchFlags] using ihx.1 rfl
                  · simp only [consEvents, researchFlags, List.filterMap_append,
                      List.filterMap_cons, List.filterMap_nil, monotoneFlags]
                    simpa [researchFlags] using ihx.1 rfl
              · cases pw <;> simp [consEvents, pqFinish, researchFlags, monotoneFlags]
    · simp [pqFinish, researchFlags, monotoneFlags]

theorem pqLoop_exhausted (A : LLMOracle) (q : String) (N : Nat)
    (hR : ∀ k pw, (researchImpl q (A.research k pw)).success = true)
    (hA : ∀ k, (analyzeImpl (A.analyze k)).success = true)
    (hS : ∀ k, (analyzeImpl (A.analyze k)).sufficient = false)
    (hW : ∀ k, containsSub "web_search".data
      (pyLower (analyzeImpl (A.analyze k)).recommendation.data) = false)
    (hM : ∀ k, containsSub "more_research".data
      (pyLower (analyzeImpl (A.analyze k)).recommendation.data) = true) :
    ∀ fuel i pw lr la,
      (pqLoop A q N fuel i pw lr la).1.success = false
      ∧ (pqLoop A q N fuel i pw lr la).1.final_answer
          = (writeImpl q A.write).summary
      ∧ (pqLoop A q N fuel i pw lr la).1.note
          = some "Maximum iterations reached or insufficient information found" := by
  intro fuel
  induction fuel with
  | zero => intro i pw lr la; simp [pqLoop, pqFinish]
  | succ n ih =>
    intro i pw lr la
    simp only [pqLoop]
    split
    · simp only [hR, hA, hS, hW, hM, Bool.not_true, Bool.false_and,
        Bool.false_eq_true, if_false, if_true, consEvents]
      exact ih (i+1) pw _ _
    · simp [pqFinish]

/-! ### Claim theorems -/

/-- Claim C1: for every run with iteration budget `N ≥ 1`, the graph
workflow and the explicit loop each invoke the Retriever at most `N` times;
the research node increments `iteration_count` exactly once per attempt;
and once `iteration_count ≥ max_iterations` the routing decision is
`write`, never `continue`. -/
theorem retriever_budget_bound (A : LLMOracle) (q : String) (N : Nat)
    (s : WorkflowState) (hN : 1 ≤ N)
    (hs : s.max_iterations ≤ s.iteration_count) :
    researchCount (runWithBudget A q N).2 ≤ N
    ∧ researchCount (processQuery A q N).2 ≤ N
    ∧ (researchNode A s).iteration_count = s.iteration_count + 1
    ∧ shouldContinue s = Route.write := by
  refine ⟨?_, pqLoop_research_le A q N N 0 false none none, rfl, ?_⟩
  · have h := runGraph_research_le A (N+1) { query := q, max_iterations := N }
      (by simpa using hN)
    simpa [runWithBudget] using h
  · unfold shouldContinue
    split_ifs <;> rfl

/-- Claim C1, instantiated: budget 3 with an oracle that never reports
sufficiency, and a state whose count has reached its budget. -/
theorem retriever_budget_bound_inst :
    (1 ≤ 3 ∧ budgetState.max_iterations ≤ budgetState.iteration_count)
    ∧ (researchCount (runWithBudget insufficientOracle "q" 3).2 ≤ 3
       ∧ researchCount (processQuery insufficientOracle "q" 3).2 ≤ 3
       ∧ (researchNode insufficientOracle budgetState).iteration_count
           = budgetState.iteration_count + 1
       ∧ shouldContinue budgetState = Route.write) :=
  ⟨⟨by decide, by decide⟩,
   retriever_budget_bound insufficientOracle "q" 3 budgetState (by decide) (by decide)⟩

/-- Claim C2: the decision taken after each analysis — the supervisor's
state delta plus the `_should_continue` routing — equals the ordered,
first-match-wins policy: sufficient → SYNTHESIZE; budget reached →
SYNTHESIZE; not yet escalated and escalation recommended →
ESCALATE_AND_CONTINUE; otherwise CONTINUE. -/
theorem decision_policy_first_match (s : WorkflowState) :
    (decideCode s).1 = decideSpec s := by
  unfold decideCode decideSpec
  by_cases h1 : sufficientOf s.analysis_results = true
  · simp [supervisorNode, shouldContinue, h1]
  · rw [Bool.not_eq_true] at h1
    by_cases h2 : s.max_iterations ≤ s.iteration_count
    · simp [supervisorNode, shouldContinue, h1, h2]
    · by_cases h3 : (!s.use_web_search
          && escalationRecommended (recommendationOf s.analysis_results)) = true
      · have h3' := h3
        simp only [Bool.and_eq_true, Bool.not_eq_true'] at h3'
        obtain ⟨hw, hesc⟩ := h3'
        simp only [escalationRecommended] at hesc h3
        simp [supervisorNode, shouldContinue, escalationRecommended, h1, h2, hw, hesc]
      · rw [Bool.not_eq_true] at h3
        simp only [escalationRecommended] at h3
        simp only [Bool.and_eq_false_iff, Bool.not_eq_false'] at h3
        have hcond : (!s.use_web_search
            && containsSub "web search".data
              (pyLower (recommendationOf s.analysis_results).data)) = false := by
          rcases h3 with hw | hc <;> simp [*]
        rcases h3 with hw | hc
        · simp [supervisorNode, shouldContinue, escalationRecommended, h1, h2, hcond, hw]
        · simp [supervisorNode, shouldContinue, escalationRecommended, h1, h2, hcond, hc]

/-- Claim C3: with budget 3, if the first analysis is insufficient and
recommends escalation (in the code's sense: the phrase "web search" occurs
in the lowercased recommendation) and the later analyses are insufficient,
then the Retriever runs with the primary strategy (`prefer_web = false`) on
iteration 1 and the alternate strategy (`prefer_web = true`) on iterations
2 and 3, and the final state reports `use_web_search = true`. -/
theorem escalation_scenario (A : LLMOracle) (q : String)
    (a1 : (analyzeImpl (A.analyze 1)).sufficient = false)
    (e1 : escalationRecommended (analyzeImpl (A.analyze 1)).recommendation = true)
    (a2 : (analyzeImpl (A.analyze 2)).sufficient = false)
    (a3 : (analyzeImpl (A.analyze 3)).sufficient = false) :
    (runWithBudget A q 3).2 =
      [Event.research 1 false, Event.analysis 1 false,
       Event.research 2 true, Event.analysis 2 false,
       Event.research 3 true, Event.analysis 3 false, Event.write]
    ∧ (runWithBudget A q 3).1.use_web_search = true := by
  simp only [escalationRecommended] at e1
  simp [runWithBudget, runGraph, researchNode, analysisNode, supervisorNode,
    writerNode, shouldContinue, sufficientOf, recommendationOf, a1, a2, a3, e1]

/-- Claim C3, instantiated on a concrete oracle whose first analysis
recommends "Need Web Search" and whose later analyses recommend retries. -/
theorem escalation_scenario_inst :
    ((analyzeImpl (escalOracle.analyze 1)).sufficient = false
     ∧ escalationRecommended (analyzeImpl (escalOracle.analyze 1)).recommendation
         = true)
    ∧ ((runWithBudget escalOracle "q" 3).2 =
        [Event.research 1 false, Event.analysis 1 false,
         Event.research 2 true, Event.analysis 2 false,
         Event.research 3 true, Event.analysis 3 false, Event.write]
       ∧ (runWithBudget escalOracle "q" 3).1.use_web_search = true) :=
  ⟨⟨by decide, by decide⟩,
   escalation_scenario escalOracle "q" (by decide) (by decide) (by decide) (by decide)⟩

/-- Claim C4 (counterexample): invoking the workflow with an empty query
does not fail fast — the Retriever is invoked first (three times in all)
and the run returns a normal result record; and `process_query` with
`max_iterations = 0 < 1` invokes the Synthesizer instead of raising.  No
`ConfigurationError` exists anywhere in the code. -/
theorem no_configuration_error_cex :
    ((runWorkflow insufficientOracle "").2).head? = some (Event.research 1 false)
    ∧ (runWorkflow insufficientOracle "").1.final_output = "final summary"
    ∧ researchCount (runWorkflow insufficientOracle "").2 = 3
    ∧ ((processQuery insufficientOracle "" 0).2).head? = some Event.write := by
  decide

/-- Claim C4 (amended): neither entry point validates its input — for every
query (the empty one included) and every positive budget, the first
collaborator call is a research call with the primary strategy; the run
proceeds normally and returns a result record, and no configuration error
is ever raised. -/
theorem no_validation_first_call (A : LLMOracle) (q : String) (N m : Nat)
    (hN : N = m + 1) :
    ((runWorkflow A q).2).head? = some (Event.research 1 false)
    ∧ ((processQuery A q N).2).head? = some (Event.research 1 false) := by
  subst hN
  constructor
  · rw [runWorkflow, initialState, runGraph]
    split <;> rfl
  · simp only [processQuery, pqLoop]
    have h01 : 0 < m + 1 := Nat.succ_pos m
    simp only [h01, if_true]
    split
    · rfl
    · split
      · rfl
      · split
        · rfl
        · split
          · rfl
          · split <;> rfl

/-- Claim C4 (amended), instantiated at the empty query with budget 1. -/
theorem no_validation_first_call_inst :
    ((runWorkflow insufficientOracle "").2).head? = some (Event.research 1 false)
    ∧ ((processQuery insufficientOracle "" 1).2).head? = some (Event.research 1 false) :=
  no_validation_first_call insufficientOracle "" 1 0 rfl

/-- Claim C5: the escalation flag starts false; the research, analysis and
writer nodes leave it unchanged; the supervisor either leaves it unchanged
or sets it from false to true; whole graph runs never lower it; and in the
traces of both orchestrators the `prefer_web` flags of the research calls
are monotone (once true, never false again). -/
theorem web_flag_monotone (A : LLMOracle) (q : String) (N fuel : Nat)
    (s : WorkflowState) :
    (initialState q).use_web_search = false
    ∧ (researchNode A s).use_web_search = s.use_web_search
    ∧ (analysisNode A s).use_web_search = s.use_web_search
    ∧ (writerNode A s).use_web_search = s.use_web_search
    ∧ ((supervisorNode s).use_web_search = s.use_web_search
       ∨ (s.use_web_search = false ∧ (supervisorNode s).use_web_search = true))
    ∧ s.use_web_search ≤ (runGraph A fuel s).1.use_web_search
    ∧ monotoneFlags (researchFlags (runGraph A fuel s).2) = true
    ∧ monotoneFlags (researchFlags (processQuery A q N).2) = true := by
  refine ⟨rfl, rfl, rfl, rfl, supervisorNode_web_cases s, ?_,
    (runGraph_flags A fuel s).2, (pqLoop_flags A q N N 0 false none none).2⟩
  cases hw : s.use_web_search
  · exact Bool.false_le _
  · rw [runGraph_web_mono A fuel s hw]

/-- Claim C6: in any graph run, whatever follows a sufficient analysis
verdict in the trace is exactly the single writing call — no research call
ever occurs after sufficiency is observed. -/
theorem sufficient_stops_retrieval (A : LLMOracle) (q : String) (N k : Nat)
    (p suf : List Event)
    (h : (runWithBudget A q N).2 = p ++ Event.analysis k true :: suf) :
    suf = [Event.write] :=
  runGraph_sufficient_stops A (N+1) _ p suf k h

/-- Claim C6, instantiated: an immediately sufficient oracle produces the
trace research–analysis(sufficient)–write, and the theorem applies to it. -/
theorem sufficient_stops_retrieval_inst :
    (runWithBudget sufficientOracle "q" 3).2
      = [Event.research 1 false] ++ Event.analysis 1 true :: [Event.write]
    ∧ ([Event.write] : List Event) = [Event.write] :=
  ⟨by decide,
   sufficient_stops_retrieval sufficientOracle "q" 3 1
     [Event.research 1 false] [Event.write] (by decide)⟩

/-- Claim C7 (counterexample): with budget 3 and a Retriever that fails on
iteration 1, `process_query` performs exactly one research call and reports
`iterations = 1` — it breaks out of the loop instead of consuming the
attempt and continuing (continuing would yield three research calls). -/
theorem failure_breaks_loop_cex :
    researchCount (processQuery failingResearchOracle "q" 3).2 = 1
    ∧ (processQuery failingResearchOracle "q" 3).1.iterations = 1
    ∧ writeCount (processQuery failingResearchOracle "q" 3).2 = 1 := by
  decide

/-- Claim C7 (amended): when the first research call reports failure,
`process_query` exits the loop immediately after that single attempt,
still proceeds to a best-effort Synthesizer call, and returns a result
record (no exception propagates) with `iterations = 1` and
`success = false`. -/
theorem failure_breaks_loop (A : LLMOracle) (q : String) (N m : Nat)
    (hN : N = m + 1)
    (hfail : (researchImpl q (A.research 1 false)).success = false) :
    (processQuery A q N).2 = [Event.research 1 false, Event.write]
    ∧ (processQuery A q N).1.iterations = 1
    ∧ (processQuery A q N).1.final_answer = (writeImpl q A.write).summary
    ∧ (processQuery A q N).1.success = false := by
  subst hN
  simp only [processQuery, pqLoop]
  simp [hfail, consEvents, pqFinish]

/-- Claim C7 (amended), instantiated on an always-failing Retriever with
budget 3. -/
theorem failure_breaks_loop_inst :
    ((3 : Nat) = 2 + 1
     ∧ (researchImpl "q" (failingResearchOracle.research 1 false)).success = false)
    ∧ ((processQuery failingResearchOracle "q" 3).2
         = [Event.research 1 false, Event.write]
       ∧ (processQuery failingResearchOracle "q" 3).1.iterations = 1
       ∧ (processQuery failingResearchOracle "q" 3).1.final_answer
           = (writeImpl "q" failingResearchOracle.write).summary
       ∧ (processQuery failingResearchOracle "q" 3).1.success = false) :=
  ⟨⟨rfl, by decide⟩,
   failure_breaks_loop failingResearchOracle "q" 3 2 rfl (by decide)⟩

/-- Claim C8 (counterexample): on the budget-exhausted path the Synthesizer
call succeeds, yet the result's `success` field is `false` — it does not
reflect the Synthesizer's own outcome. -/
theorem exhausted_success_false_cex :
    (processQuery insufficientOracle "q" 1).1.success = false
    ∧ (writeImpl "q" insufficientOracle.write).success = true
    ∧ (processQuery insufficientOracle "q" 1).1.final_answer = "final summary" := by
  decide

/-- Claim C8 (amended): the post-loop path still produces a best-effort
`final_answer` from the Synthesizer call, but hard-codes `success = false`
regardless of the Synthesizer's outcome; under an oracle that always
succeeds without sufficiency and recommends more research, the whole run
ends on that path. -/
theorem exhausted_best_effort (A : LLMOracle) (q : String) (N i : Nat)
    (lr : Option ResearchResult) (la : Option AnalysisResult)
    (hR : ∀ k pw, (researchImpl q (A.research k pw)).success = true)
    (hA : ∀ k, (analyzeImpl (A.analyze k)).success = true)
    (hS : ∀ k, (analyzeImpl (A.analyze k)).sufficient = false)
    (hW : ∀ k, containsSub "web_search".data
      (pyLower (analyzeImpl (A.analyze k)).recommendation.data) = false)
    (hM : ∀ k, containsSub "more_research".data
      (pyLower (analyzeImpl (A.analyze k)).recommendation.data) = true) :
    (pqFinish A q i lr la).1.final_answer = (writeImpl q A.write).summary
    ∧ (pqFinish A q i lr la).1.success = false
    ∧ (processQuery A q N).1.success = false
    ∧ (processQuery A q N).1.final_answer = (writeImpl q A.write).summary
    ∧ (processQuery A q N).1.note
        = some "Maximum iterations reached or insufficient information found" := by
  have h := pqLoop_exhausted A q N hR hA hS hW hM N 0 false none none
  exact ⟨rfl, rfl, h.1, h.2.1, h.2.2⟩

/-- Claim C8 (amended), instantiated on the never-sufficient oracle with
budget 2. -/
theorem exhausted_best_effort_inst :
    (pqFinish insufficientOracle "q" 0 none none).1.final_answer
      = (writeImpl "q" insufficientOracle.write).summary
    ∧ (pqFinish insufficientOracle "q" 0 none none).1.success = false
    ∧ (processQuery insufficientOracle "q" 2).1.success = false
    ∧ (processQuery insufficientOracle "q" 2).1.final_answer
        = (writeImpl "q" insufficientOracle.write).summary
    ∧ (processQuery insufficientOracle "q" 2).1.note
        = some "Maximum iterations reached or insufficient information found" :=
  exhausted_best_effort insufficientOracle "q" 2 0 none none
    (fun _ _ => by
      show (researchImpl "q" (LLMOutcome.ok "some findings")).success = true
      decide)
    (fun _ => by
      show (analyzeImpl
        (LLMOutcome.ok "SUFFICIENT: No\nRECOMMENDATION: need_more_research")).success
          = true
      decide)
    (fun _ => by
      show (analyzeImpl
        (LLMOutcome.ok "SUFFICIENT: No\nRECOMMENDATION: need_more_research")).sufficient
          = false
      decide)
    (fun _ => by
      show containsSub "web_search".data (pyLower (analyzeImpl
        (LLMOutcome.ok "SUFFICIENT: No\nRECOMMENDATION: need_more_research")).recommendation.data)
          = false
      decide)
    (fun _ => by
      show containsSub "more_research".data (pyLower (analyzeImpl
        (LLMOutcome.ok "SUFFICIENT: No\nRECOMMENDATION: need_more_research")).recommendation.data)
          = true
      decide)

/-- Claim C10 (counterexample): the Synthesizer can succeed with empty
content, in which case `final_output` is assigned the empty string — it is
not always non-empty. -/
theorem writer_empty_output_cex :
    (runWorkflow emptyWriterOracle "q").1.final_output = ""
    ∧ (writeImpl "q" emptyWriterOracle.write).success = true
    ∧ writeCount (runWorkflow emptyWriterOracle "q").2 = 1 := by
  decide

/-- Claim C10 (amended): the routing function only ever returns `write` or
`continue`, never `end`; every budgeted graph run performs exactly one
writing call; `final_output` is always assigned the writer's summary —
which is the non-empty message `"Writing failed: ..."` whenever the
Synthesizer call fails, and the Synthesizer's (possibly empty) content
when it succeeds. -/
theorem writer_invoked_once (A : LLMOracle) (q e : String) (N : Nat)
    (s : WorkflowState) :
    (shouldContinue s = Route.write ∨ shouldContinue s = Route.cont)
    ∧ writeCount (runWithBudget A q N).2 = 1
    ∧ (runWorkflow A q).1.final_output = (writeImpl q A.write).summary
    ∧ (writeImpl q (LLMOutcome.err e)).summary = "Writing failed: " ++ e
    ∧ 0 < (writeImpl q (LLMOutcome.err e)).summary.length := by
  refine ⟨?_, ?_, ?_, rfl, ?_⟩
  · unfold shouldContinue
    split_ifs <;> simp
  · exact runGraph_write_count A (N+1) _ (Nat.succ_pos N) (by simp)
  · have h := runGraph_final_output A 4 (initialState q) (by omega)
      (by simp [initialState])
    simpa [runWorkflow, initialState] using h
  · have hs : (writeImpl q (LLMOutcome.err e)).summary = "Writing failed: " ++ e := rfl
    rw [hs, String.length_append]
    have h16 : "Writing failed: ".length = 16 := rfl
    omega

end AgenticRAG
